import Mathlib

/-!
Verification of the PaperRank crawl engine against its specification.

Shallow embedding of the Graph Update Protocol (PaperRank/update/worker.py),
the batch query flow (PaperRank/update/query.py) and the Redis frontier
store operations (PaperRank/util/database/redis_connector.py). The redis
pipeline is modelled as a list of staged commands and pipe.execute as the
in-order application of that list to an explicit store state.
-/

namespace PaperRank

/-- PMIDs are opaque paper identifiers; modelled as naturals. -/
abbrev PMID := Nat

/-- Output contract of the Citation Record Extractor (the NCBICitation
object): exactly the four fields the worker in update/worker.py reads from
the citation object (id, outbound, inbound, error). The extractor itself is
an external collaborator (spec section 4.2). -/
structure Citation where
  id : PMID
  outbound : List PMID
  inbound : List PMID
  error : Bool
deriving DecidableEq

/-- The frontier store collections touched by the update cycle (spec section
3): SEEN, GRAPH, EXPLORE, INSTANCE, DANGLING are redis sets, OUT is a redis
hash from PMID to its outbound list, modelled as an association list whose
head entry wins. -/
@[ext]
structure Store where
  SEEN : Finset PMID
  GRAPH : Finset (PMID × PMID)
  OUT : List (PMID × List PMID)
  EXPLORE : Finset PMID
  INSTANCE : Finset PMID
  DANGLING : Finset PMID
deriving DecidableEq

/-- One staged redis pipeline command, as queued by update/worker.py and
update/query.py against the named collections. -/
inductive Op where
  | sadd_SEEN (id : PMID)
  | sadd_GRAPH (edges : List (PMID × PMID))
  | hmset_OUT (id : PMID) (outbound : List PMID)
  | sadd_EXPLORE (ids : List PMID)
  | sdiffstore_EXPLORE_SEEN
  | sadd_DANGLING (id : PMID)
  | srem_INSTANCE (ids : List PMID)
deriving DecidableEq

/-- Redis HMSET on the OUT hash with a one-entry mapping: set key id to the
outbound list, overwriting any previous entry for that key. -/
def hmset (m : List (PMID × List PMID)) (id : PMID) (outbound : List PMID) :
    List (PMID × List PMID) :=
  (id, outbound) :: m.filter (fun p => p.1 ≠ id)

/-- Apply one staged command to the store. -/
def applyOp (s : Store) : Op → Store
  | .sadd_SEEN id => { s with SEEN := insert id s.SEEN }
  | .sadd_GRAPH edges => { s with GRAPH := s.GRAPH ∪ edges.toFinset }
  | .hmset_OUT id outbound => { s with OUT := hmset s.OUT id outbound }
  | .sadd_EXPLORE ids => { s with EXPLORE := s.EXPLORE ∪ ids.toFinset }
  | .sdiffstore_EXPLORE_SEEN => { s with EXPLORE := s.EXPLORE \ s.SEEN }
  | .sadd_DANGLING id => { s with DANGLING := insert id s.DANGLING }
  | .srem_INSTANCE ids => { s with INSTANCE := s.INSTANCE \ ids.toFinset }

/-- Commit a queued pipeline: pipe.execute applies the commands in order. -/
def applyOps (s : Store) (ops : List Op) : Store :=
  ops.foldl applyOp s

/-- The worker function of update/worker.py. Given the pipeline so far and
one citation record it queues: nothing on a record error; otherwise
SEEN.add, then, if any inbound or outbound tuples exist, the GRAPH edges,
the OUT entry, the EXPLORE additions and the EXPLORE minus SEEN filter,
else the DANGLING.add; and finally the INSTANCE removal of the id. -/
def worker (pipe : List Op) (c : Citation) : List Op :=
  if c.error then
    pipe
  else
    let pipe1 := pipe ++ [Op.sadd_SEEN c.id]
    let out_tuples := c.outbound.map (fun i => (c.id, i))
    let in_tuples := c.inbound.map (fun i => (i, c.id))
    if out_tuples.length + in_tuples.length > 0 then
      pipe1 ++ [Op.sadd_GRAPH (in_tuples ++ out_tuples),
                Op.hmset_OUT c.id c.outbound,
                Op.sadd_EXPLORE (c.inbound ++ c.outbound),
                Op.sdiffstore_EXPLORE_SEEN,
                Op.srem_INSTANCE [c.id]]
    else
      pipe1 ++ [Op.sadd_DANGLING c.id, Op.srem_INSTANCE [c.id]]

/-- The failed request handler of update/query.py: queue the removal of the
batch PMIDs from INSTANCE and their re-addition to EXPLORE for retrying. -/
def failedRequestHandler (pipe : List Op) (pmids : List PMID) : List Op :=
  pipe ++ [Op.srem_INSTANCE pmids, Op.sadd_EXPLORE pmids]

/-- Outcome of the external NCBI lookup attempt in update/query.py. The
requests.get call there is not wrapped in any try/except, so a transport or
network error raises uncaught out of the Query run (transportError); the
only other possibilities are a received response that is non-success (r.ok
false, badStatus), a well-formed response missing the expected eLinkResult
LinkSet key (missingKey), or a demultiplexed list of linkset records (the
single-linkset and list-of-linksets response shapes are both handled by
running the worker on each record). -/
inductive ApiResponse where
  | transportError
  | badStatus
  | missingKey
  | linksets (records : List Citation)

/-- Pipeline staged by one Query run for a claimed batch. On a transport
error nothing is ever staged: the exception propagates before the r.ok
check, so the staged pipeline is empty and is never executed either (see
queryRun). On a received bad-status or missing-key response the whole batch
goes through the failed request handler; on a parsed response each record
goes through the worker. -/
def queryOps (pmids : List PMID) (resp : ApiResponse) : List Op :=
  match resp with
  | .transportError => []
  | .badStatus => failedRequestHandler [] pmids
  | .missingKey => failedRequestHandler [] pmids
  | .linksets records => records.foldl worker []

/-- How one Query run ends: pipe.execute committed the staged pipeline and
the run returned, or an uncaught exception aborted the run, leaving the
store as it was. -/
inductive QueryResult where
  | committed (s : Store)
  | raised (s : Store)
deriving DecidableEq

/-- The store a Query run leaves behind, whether it returned or raised. -/
def QueryResult.store : QueryResult → Store
  | .committed s => s
  | .raised s => s

/-- One Query run of update/query.py against the store. A transport error
raises out of requests.get uncaught, before any pipeline command is staged
and before pipe.execute, so the run aborts with the store untouched and the
batch still claimed in INSTANCE. For any received response the staged
pipeline is committed in order by pipe.execute. -/
def queryRun (s : Store) (pmids : List PMID) (resp : ApiResponse) :
    QueryResult :=
  match resp with
  | .transportError => .raised s
  | resp => .committed (applyOps s (queryOps pmids resp))

/-- Final store of one Query run. -/
def queryStore (s : Store) (pmids : List PMID) (resp : ApiResponse) : Store :=
  (queryRun s pmids resp).store

/-- Pipeline staged for a successful batch of citation records. -/
def batchOps (records : List Citation) : List Op :=
  records.foldl worker []

/-- Commit of a successful batch: every record processed in sequence by the
worker, then the whole pipeline executed. -/
def commitBatch (s : Store) (records : List Citation) : Store :=
  applyOps s (batchOps records)

/-- One store-mutating unit of the crawl for the monotonicity property: a
processed citation record (worker pipeline) or a failed batch request
(failed request handler pipeline), each committed. -/
inductive Event where
  | record (c : Citation)
  | failedBatch (pmids : List PMID)

/-- Commit the pipeline of one event. -/
def applyEvent (s : Store) : Event → Store
  | .record c => applyOps s (worker [] c)
  | .failedBatch pmids => applyOps s (failedRequestHandler [] pmids)

/-- Run a sequence of crawl events against the store. -/
def runEvents (s : Store) (events : List Event) : Store :=
  events.foldl applyEvent s

/-- Keys of the OUT hash: the PMIDs holding an outbound index entry. -/
def outKeys (s : Store) : Finset PMID :=
  (s.OUT.map Prod.fst).toFinset

/-- Abbreviation-key mapping ABBR of redis_connector.py. -/
def ABBR : List (String × String) :=
  [("O", "OUT"), ("S", "SEEN"), ("G", "GRAPH"), ("E", "EXPLORE"),
   ("I", "INSTANCE"), ("N", "NOT"), ("L", "LOG"), ("D", "DANGLING")]

/-- Dictionary lookup in ABBR. -/
def lookupABBR (k : String) : Option String :=
  (ABBR.find? (fun p => p.1 == k)).map Prod.snd

/-- The key set of the ABBR dictionary. -/
def abbrKeys : List String := ABBR.map Prod.fst

/-- Errors surfaced by the store layer: the RuntimeError raised by the
verifyDatabase decorator for an unknown collection name, and the redis
wrong-number-of-arguments reply to a member command with no members. -/
inductive DbError where
  | invalidCollection
  | wrongArity
deriving DecidableEq

/-- The verifyDatabase decorator of redis_connector.py: raise on a database
name not among the ABBR keys, otherwise rewrite the name to the full
collection name and run the decorated operation on it. -/
def verifyDatabase {α : Type} (decorated : String → Except DbError α)
    (database : String) : Except DbError α :=
  if database ∈ abbrKeys then decorated ((lookupABBR database).getD database)
  else .error .invalidCollection

/-- SRANDMEMBER with a count: up to n distinct members of the set. The set
is carried as its duplicate-free member list and the random choice is
resolved deterministically as the first n members (one admissible draw). -/
def srandmember (members : List PMID) (n : Nat) : List PMID :=
  members.take n

/-- SREM: redis rejects the command with a wrong-number-of-arguments error
when no member is given, otherwise removes the listed members (absent
members are a no-op). -/
def srem (members : List PMID) (data : List PMID) :
    Except DbError (List PMID) :=
  if data.isEmpty then .error .wrongArity
  else .ok (members.filter (fun m => m ∉ data))

/-- RedisSet.pop of redis_connector.py: an srandmember call followed by a
separate srem call on the sampled members — two redis commands, not one
atomic step. Returns the sampled members and the resulting set. -/
def RedisSet.pop (members : List PMID) (n : Nat) :
    Except DbError (List PMID × List PMID) :=
  let popped := srandmember members n
  match srem members popped with
  | .error e => .error e
  | .ok remaining => .ok (popped, remaining)

/-- Two concurrent RedisSet.pop calls on the same set under the interleaving
in which both srandmember selections run before either srem: claimant A
samples, claimant B samples, A removes its sample, B removes its sample.
Returns the two sampled batches and the final set. -/
def interleavedPops (members : List PMID) (n : Nat) :
    List PMID × List PMID × Except DbError (List PMID) :=
  let a := srandmember members n
  let b := srandmember members n
  match srem members a with
  | .error e => (a, b, .error e)
  | .ok m1 =>
    match srem m1 b with
    | .error e => (a, b, .error e)
    | .ok m2 => (a, b, .ok m2)

/-! Structural lemmas about the staged pipelines. -/

lemma worker_error (pipe : List Op) (c : Citation) (he : c.error = true) :
    worker pipe c = pipe := by
  simp [worker, he]

lemma worker_edges (c : Citation) (he : c.error = false)
    (hne : c.inbound ++ c.outbound ≠ []) :
    worker [] c = [Op.sadd_SEEN c.id,
      Op.sadd_GRAPH (c.inbound.map (fun i => (i, c.id)) ++
        c.outbound.map (fun i => (c.id, i))),
      Op.hmset_OUT c.id c.outbound,
      Op.sadd_EXPLORE (c.inbound ++ c.outbound),
      Op.sdiffstore_EXPLORE_SEEN,
      Op.srem_INSTANCE [c.id]] := by
  have h0 : c.inbound.length + c.outbound.length ≠ 0 := by
    intro h
    apply hne
    have h1 : c.inbound = [] := List.length_eq_zero.mp (by omega)
    have h2 : c.outbound = [] := List.length_eq_zero.mp (by omega)
    rw [h1, h2]
    rfl
  have hpos : (c.outbound.map (fun i => (c.id, i))).length +
      (c.inbound.map (fun i => (i, c.id))).length > 0 := by
    simp only [List.length_map]
    omega
  simp [worker, he, hpos]
  intro h2 h1
  exact h0 (by rw [h1, h2]; rfl)

lemma worker_dangling (c : Citation) (he : c.error = false)
    (hin : c.inbound = []) (hout : c.outbound = []) :
    worker [] c = [Op.sadd_SEEN c.id, Op.sadd_DANGLING c.id,
      Op.srem_INSTANCE [c.id]] := by
  simp [worker, he, hin, hout]

lemma worker_pipe (pipe : List Op) (c : Citation) :
    worker pipe c = pipe ++ worker [] c := by
  by_cases he : c.error
  · simp [worker, he]
  · simp only [worker, he, if_false, Bool.false_eq_true]
    split <;> simp

lemma applyOps_append (s : Store) (p q : List Op) :
    applyOps s (p ++ q) = applyOps (applyOps s p) q := by
  simp [applyOps, List.foldl_append]

lemma foldl_worker_pipe (records : List Citation) :
    ∀ pipe : List Op,
      records.foldl worker pipe = pipe ++ records.foldl worker [] := by
  induction records with
  | nil => intro pipe; simp
  | cons c t ih =>
    intro pipe
    rw [List.foldl_cons, List.foldl_cons, ih (worker pipe c),
      ih (worker [] c), worker_pipe pipe c]
    simp

lemma commitBatch_cons (s : Store) (c : Citation) (records : List Citation) :
    commitBatch s (c :: records) =
      commitBatch (applyOps s (worker [] c)) records := by
  unfold commitBatch batchOps
  rw [List.foldl_cons, foldl_worker_pipe records (worker [] c),
    worker_pipe [] c, List.nil_append, applyOps_append]

/-- Claim C1: on a citation record with the error flag set, the worker is
required by the spec to stage no processed-marking mutation but still stage
the removal of the record id from INSTANCE. The code instead returns the
pipeline unmodified: for the error record with id 1 it stages no commands at
all, so committing its pipeline on a store whose INSTANCE is the singleton
set of 1 leaves 1 claimed in INSTANCE — the claim on the id is never
released. -/
theorem C1_error_record_keeps_claim :
    worker [] (Citation.mk 1 [] [] true) = [] ∧
    (applyOps (Store.mk ∅ ∅ [] ∅ {1} ∅)
      (worker [] (Citation.mk 1 [] [] true))).INSTANCE = {1} := by
  constructor
  · rfl
  · decide

/-- Claim C4: for a non-error citation record with at least one inbound or
outbound citation the worker stages exactly SEEN.add, the GRAPH edge tuples
(inbound tuples pointing to the id, outbound tuples pointing from it), the
OUT entry mapping the id to its outbound list, the EXPLORE addition of all
inbound and outbound neighbors followed by the EXPLORE minus SEEN filter,
and the removal of the id from INSTANCE; committing the pipeline for the
record with id 1, outbound [2, 3] and no inbound on a store holding only
claim 1 yields SEEN = {1}, GRAPH = {(1,2),(1,3)}, OUT = {1 ↦ [2,3]},
EXPLORE = {2,3} and empty INSTANCE. -/
theorem C4_edges_protocol (c : Citation) (he : c.error = false)
    (hne : c.inbound ++ c.outbound ≠ []) :
    worker [] c = [Op.sadd_SEEN c.id,
      Op.sadd_GRAPH (c.inbound.map (fun i => (i, c.id)) ++
        c.outbound.map (fun i => (c.id, i))),
      Op.hmset_OUT c.id c.outbound,
      Op.sadd_EXPLORE (c.inbound ++ c.outbound),
      Op.sdiffstore_EXPLORE_SEEN,
      Op.srem_INSTANCE [c.id]] ∧
    commitBatch (Store.mk ∅ ∅ [] ∅ {1} ∅) [Citation.mk 1 [2, 3] [] false] =
      Store.mk {1} {(1, 2), (1, 3)} [(1, [2, 3])] {2, 3} ∅ ∅ := by
  refine ⟨worker_edges c he hne, ?_⟩
  decide

/-- Witness for C4 at the concrete record with id 1, outbound [2, 3], no
inbound and no error. -/
theorem C4_edges_witness :
    (Citation.mk 1 [2, 3] [] false).error = false ∧
    (Citation.mk 1 [2, 3] [] false).inbound ++
      (Citation.mk 1 [2, 3] [] false).outbound ≠ [] ∧
    worker [] (Citation.mk 1 [2, 3] [] false) = [Op.sadd_SEEN 1,
      Op.sadd_GRAPH [(1, 2), (1, 3)], Op.hmset_OUT 1 [2, 3],
      Op.sadd_EXPLORE [2, 3], Op.sdiffstore_EXPLORE_SEEN,
      Op.srem_INSTANCE [1]] :=
  ⟨rfl, by decide,
    (C4_edges_protocol (Citation.mk 1 [2, 3] [] false) rfl (by decide)).1⟩

/-- Claim C5: for a non-error citation record with zero inbound and zero
outbound citations the worker stages exactly SEEN.add, DANGLING.add and the
removal of the id from INSTANCE, leaving GRAPH, OUT and EXPLORE unchanged on
any store; committing the pipeline for the edge-less record with id 5 on a
store holding only claim 5 yields SEEN = {5}, DANGLING = {5}, empty GRAPH
and empty EXPLORE. -/
theorem C5_dangling_protocol (c : Citation) (s : Store)
    (he : c.error = false) (hin : c.inbound = []) (hout : c.outbound = []) :
    worker [] c = [Op.sadd_SEEN c.id, Op.sadd_DANGLING c.id,
      Op.srem_INSTANCE [c.id]] ∧
    (applyOps s (worker [] c)).GRAPH = s.GRAPH ∧
    (applyOps s (worker [] c)).OUT = s.OUT ∧
    (applyOps s (worker [] c)).EXPLORE = s.EXPLORE ∧
    commitBatch (Store.mk ∅ ∅ [] ∅ {5} ∅) [Citation.mk 5 [] [] false] =
      Store.mk {5} ∅ [] ∅ ∅ {5} := by
  rw [worker_dangling c he hin hout]
  refine ⟨rfl, rfl, rfl, rfl, ?_⟩
  decide

/-- Witness for C5 at the concrete edge-less record with id 5 on a store
holding only claim 5. -/
theorem C5_dangling_witness :
    (Citation.mk 5 [] [] false).error = false ∧
    (Citation.mk 5 [] [] false).inbound = [] ∧
    (Citation.mk 5 [] [] false).outbound = [] ∧
    worker [] (Citation.mk 5 [] [] false) = [Op.sadd_SEEN 5,
      Op.sadd_DANGLING 5, Op.srem_INSTANCE [5]] :=
  ⟨rfl, rfl, rfl,
    (C5_dangling_protocol (Citation.mk 5 [] [] false)
      (Store.mk ∅ ∅ [] ∅ {5} ∅) rfl rfl rfl).1⟩

/-- Claim C3: the claim operation is specified as one atomic
select-and-remove step whose two concurrent runs return disjoint batches.
The code issues srandmember and srem as two separate redis commands, so
under the interleaving in which both claimants sample the one-member set
{7} before either removes, both RedisSet.pop calls return the batch [7]:
the two returned batches share the member 7 and are not disjoint. -/
theorem C3_two_step_pop_overlap :
    (interleavedPops [7] 1).1 = [7] ∧
    (interleavedPops [7] 1).2.1 = [7] ∧
    7 ∈ (interleavedPops [7] 1).1 ∧
    7 ∈ (interleavedPops [7] 1).2.1 := by
  decide

/-- Claim C10: on a Set-backed collection with zero members (including a
never-created one), RedisSet.pop samples the empty member list and then
invokes srem with no members, which redis rejects — the pop raises rather
than returning an empty list. -/
theorem C10_pop_empty_errors (members : List PMID) (n : Nat)
    (h : members = []) :
    RedisSet.pop members n = Except.error DbError.wrongArity := by
  subst h
  simp [RedisSet.pop, srandmember, srem]

/-- Witness for C10 at the empty collection with a count of 1. -/
theorem C10_pop_empty_witness :
    ([] : List PMID) = [] ∧
    RedisSet.pop ([] : List PMID) 1 = Except.error DbError.wrongArity :=
  ⟨rfl, C10_pop_empty_errors [] 1 rfl⟩

/-- Claim C2 amended: for a non-empty claimed batch whose external lookup
returns a failing response — a received non-success status, or a well-formed
response missing the expected top-level key — the Query run stages no
per-record processing: its pipeline is exactly the batch-wide INSTANCE
removal followed by the batch-wide EXPLORE re-addition, committed together,
and afterwards the batch is contained in EXPLORE, disjoint from INSTANCE,
and (given that claimed PMIDs are unseen) disjoint from SEEN. A transport
error is excluded: it raises uncaught before any rollback is staged (see
the counterexample). -/
theorem C2_received_failure_rolls_back (pmids : List PMID) (s : Store)
    (resp : ApiResponse) (hne : pmids ≠ [])
    (hfail : resp = ApiResponse.badStatus ∨ resp = ApiResponse.missingKey)
    (hseen : s.SEEN ∩ pmids.toFinset = ∅) :
    queryOps pmids resp = [Op.srem_INSTANCE pmids, Op.sadd_EXPLORE pmids] ∧
    pmids.toFinset ⊆ (queryStore s pmids resp).EXPLORE ∧
    (queryStore s pmids resp).INSTANCE ∩ pmids.toFinset = ∅ ∧
    (queryStore s pmids resp).SEEN ∩ pmids.toFinset = ∅ := by
  have hops : queryOps pmids resp =
      [Op.srem_INSTANCE pmids, Op.sadd_EXPLORE pmids] := by
    rcases hfail with h | h <;> subst h <;> rfl
  have hcommit : queryStore s pmids resp =
      { s with INSTANCE := s.INSTANCE \ pmids.toFinset,
               EXPLORE := s.EXPLORE ∪ pmids.toFinset } := by
    rcases hfail with h | h <;> subst h <;> rfl
  refine ⟨hops, ?_, ?_, ?_⟩
  · rw [hcommit]
    exact Finset.subset_union_right
  · rw [hcommit]
    exact Finset.sdiff_inter_self _ _
  · rw [hcommit]
    exact hseen

/-- Witness for C2 amended at the batch [7, 8] on a store claiming exactly
7 and 8, with a received non-success status. -/
theorem C2_received_failure_witness :
    ([7, 8] : List PMID) ≠ [] ∧
    (Store.mk ∅ ∅ [] ∅ {7, 8} ∅).SEEN ∩ ([7, 8] : List PMID).toFinset = ∅ ∧
    (([7, 8] : List PMID).toFinset ⊆
      (queryStore (Store.mk ∅ ∅ [] ∅ {7, 8} ∅) [7, 8]
        ApiResponse.badStatus).EXPLORE ∧
    (queryStore (Store.mk ∅ ∅ [] ∅ {7, 8} ∅) [7, 8]
        ApiResponse.badStatus).INSTANCE ∩ ([7, 8] : List PMID).toFinset = ∅ ∧
    (queryStore (Store.mk ∅ ∅ [] ∅ {7, 8} ∅) [7, 8]
        ApiResponse.badStatus).SEEN ∩ ([7, 8] : List PMID).toFinset = ∅) :=
  ⟨by decide, by decide,
    (C2_received_failure_rolls_back [7, 8] (Store.mk ∅ ∅ [] ∅ {7, 8} ∅)
      ApiResponse.badStatus (by decide) (Or.inl rfl) (by decide)).2⟩

/-- Counterexample to claim C2 as stated: the claim includes transport
errors among the rolled-back failures, but update/query.py calls
requests.get with no try/except, so a transport error raises uncaught out
of the Query run before any rollback is staged or executed. For the claimed
batch [7, 8] the run aborts with the store untouched: 7 and 8 are still in
INSTANCE and EXPLORE is still empty, so the batch is neither released nor
re-queued. -/
theorem C2_transport_error_counterexample :
    queryRun (Store.mk ∅ ∅ [] ∅ {7, 8} ∅) [7, 8] ApiResponse.transportError
      = QueryResult.raised (Store.mk ∅ ∅ [] ∅ {7, 8} ∅) ∧
    ¬ (([7, 8] : List PMID).toFinset ⊆
        (queryStore (Store.mk ∅ ∅ [] ∅ {7, 8} ∅) [7, 8]
          ApiResponse.transportError).EXPLORE) ∧
    ¬ ((queryStore (Store.mk ∅ ∅ [] ∅ {7, 8} ∅) [7, 8]
          ApiResponse.transportError).INSTANCE ∩
        ([7, 8] : List PMID).toFinset = ∅) := by
  decide

lemma record_commit_error (c : Citation) (s : Store) (he : c.error = true) :
    applyOps s (worker [] c) = s := by
  rw [worker_error [] c he]
  rfl

lemma record_commit_edges_disjoint (c : Citation) (s : Store)
    (he : c.error = false) (hne : c.inbound ++ c.outbound ≠ []) :
    (applyOps s (worker [] c)).EXPLORE ∩ (applyOps s (worker [] c)).SEEN
      = ∅ := by
  rw [worker_edges c he hne]
  simp only [applyOps, List.foldl_cons, List.foldl_nil, applyOp]
  exact Finset.sdiff_inter_self _ _

/-- Claim C6 amended: the batch commit re-establishes EXPLORE ∩ SEEN = ∅
provided every non-error record of the batch has at least one inbound or
outbound citation, because each such record ends with the EXPLORE minus
SEEN filter; an edge-less (dangling) record marks its id SEEN without
filtering EXPLORE, which is what breaks the unconditional claim. -/
theorem C6_explore_seen_disjoint_amended (records : List Citation) (s : Store)
    (hstart : s.EXPLORE ∩ s.SEEN = ∅)
    (hrec : ∀ c ∈ records, c.error = false → c.inbound ++ c.outbound ≠ []) :
    (commitBatch s records).EXPLORE ∩ (commitBatch s records).SEEN = ∅ := by
  induction records generalizing s with
  | nil => exact hstart
  | cons c t ih =>
    rw [commitBatch_cons]
    apply ih
    · cases he : c.error with
      | true => rw [record_commit_error c s he]; exact hstart
      | false =>
        exact record_commit_edges_disjoint c s he
          (hrec c (List.mem_cons_self c t) he)
    · intro c' hc' he'
      exact hrec c' (List.mem_cons_of_mem c hc') he'

/-- Witness for C6 amended at the single-record batch for id 1 with
outbound [2] on a store claiming exactly 1. -/
theorem C6_explore_seen_witness :
    (Store.mk ∅ ∅ [] ∅ {1} ∅).EXPLORE ∩ (Store.mk ∅ ∅ [] ∅ {1} ∅).SEEN = ∅ ∧
    (∀ c ∈ [Citation.mk 1 [2] [] false], c.error = false →
      c.inbound ++ c.outbound ≠ []) ∧
    (commitBatch (Store.mk ∅ ∅ [] ∅ {1} ∅)
        [Citation.mk 1 [2] [] false]).EXPLORE ∩
      (commitBatch (Store.mk ∅ ∅ [] ∅ {1} ∅)
        [Citation.mk 1 [2] [] false]).SEEN = ∅ :=
  ⟨by decide, by decide,
    C6_explore_seen_disjoint_amended [Citation.mk 1 [2] [] false]
      (Store.mk ∅ ∅ [] ∅ {1} ∅) (by decide) (by decide)⟩

/-- Counterexample to claim C6 as stated: starting from the store claiming
exactly 1 and 2 (which satisfies EXPLORE ∩ SEEN = ∅), committing the batch
of the record for id 1 with outbound [2] followed by the edge-less record
for id 2 leaves 2 both in EXPLORE (admitted as a neighbor of 1) and in SEEN
(marked by its own dangling processing, which stages no EXPLORE filter). -/
theorem C6_explore_seen_counterexample :
    (Store.mk ∅ ∅ [] ∅ {1, 2} ∅).EXPLORE ∩
      (Store.mk ∅ ∅ [] ∅ {1, 2} ∅).SEEN = ∅ ∧
    ¬ ((commitBatch (Store.mk ∅ ∅ [] ∅ {1, 2} ∅)
          [Citation.mk 1 [2] [] false, Citation.mk 2 [] [] false]).EXPLORE ∩
        (commitBatch (Store.mk ∅ ∅ [] ∅ {1, 2} ∅)
          [Citation.mk 1 [2] [] false, Citation.mk 2 [] [] false]).SEEN
        = ∅) := by
  decide

lemma hmset_idem (m : List (PMID × List PMID)) (id : PMID) (v : List PMID) :
    hmset (hmset m id v) id v = hmset m id v := by
  simp [hmset, List.filter_cons, List.filter_filter]

lemma explore_refilter (E N S : Finset PMID) :
    ((E ∪ N) \ S ∪ N) \ S = (E ∪ N) \ S := by
  ext a
  simp only [Finset.mem_sdiff, Finset.mem_union]
  tauto

/-- Claim C7: the Graph Update Protocol is idempotent — committing the
pipeline staged by the worker for one citation record twice in sequence
yields the same store state as committing it once, for every record and
every starting store. -/
theorem C7_protocol_idempotent (c : Citation) (s : Store) :
    applyOps (applyOps s (worker [] c)) (worker [] c)
      = applyOps s (worker [] c) := by
  cases he : c.error with
  | true =>
    rw [worker_error [] c he]
    rfl
  | false =>
    by_cases hne : c.inbound ++ c.outbound = []
    · obtain ⟨hin, hout⟩ := List.append_eq_nil.mp hne
      rw [worker_dangling c he hin hout]
      simp only [applyOps, List.foldl_cons, List.foldl_nil, applyOp]
      refine Store.ext ?_ ?_ ?_ ?_ ?_ ?_ <;> simp
    · rw [worker_edges c he hne]
      simp only [applyOps, List.foldl_cons, List.foldl_nil, applyOp]
      refine Store.ext ?_ ?_ ?_ ?_ ?_ ?_
      · simp
      · rw [Finset.union_assoc, Finset.union_self]
      · exact hmset_idem _ _ _
      · simp only [Finset.insert_idem]
        exact explore_refilter _ _ _
      · simp
      · rfl

lemma outKeys_hmset (s : Store) (id : PMID) (v : List PMID) :
    outKeys s ⊆ outKeys { s with OUT := hmset s.OUT id v } := by
  intro a ha
  simp only [outKeys, hmset, List.mem_toFinset, List.mem_map] at ha ⊢
  obtain ⟨p, hp, hpa⟩ := ha
  by_cases h : p.1 = id
  · exact ⟨(id, v), List.mem_cons_self _ _, by rw [← hpa, h]⟩
  · refine ⟨p, List.mem_cons_of_mem _ ?_, hpa⟩
    exact List.mem_filter.mpr ⟨hp, by simpa using h⟩

lemma applyOp_mono (s : Store) (op : Op) :
    s.SEEN ⊆ (applyOp s op).SEEN ∧ s.GRAPH ⊆ (applyOp s op).GRAPH ∧
    s.DANGLING ⊆ (applyOp s op).DANGLING ∧
    outKeys s ⊆ outKeys (applyOp s op) := by
  cases op with
  | sadd_SEEN id =>
    exact ⟨Finset.subset_insert _ _, Finset.Subset.refl _,
      Finset.Subset.refl _, Finset.Subset.refl _⟩
  | sadd_GRAPH edges =>
    exact ⟨Finset.Subset.refl _, Finset.subset_union_left,
      Finset.Subset.refl _, Finset.Subset.refl _⟩
  | hmset_OUT id outbound =>
    exact ⟨Finset.Subset.refl _, Finset.Subset.refl _,
      Finset.Subset.refl _, outKeys_hmset s id outbound⟩
  | sadd_EXPLORE ids =>
    exact ⟨Finset.Subset.refl _, Finset.Subset.refl _,
      Finset.Subset.refl _, Finset.Subset.refl _⟩
  | sdiffstore_EXPLORE_SEEN =>
    exact ⟨Finset.Subset.refl _, Finset.Subset.refl _,
      Finset.Subset.refl _, Finset.Subset.refl _⟩
  | sadd_DANGLING id =>
    exact ⟨Finset.Subset.refl _, Finset.Subset.refl _,
      Finset.subset_insert _ _, Finset.Subset.refl _⟩
  | srem_INSTANCE ids =>
    exact ⟨Finset.Subset.refl _, Finset.Subset.refl _,
      Finset.Subset.refl _, Finset.Subset.refl _⟩

lemma applyOps_mono (ops : List Op) :
    ∀ s : Store,
      s.SEEN ⊆ (applyOps s ops).SEEN ∧ s.GRAPH ⊆ (applyOps s ops).GRAPH ∧
      s.DANGLING ⊆ (applyOps s ops).DANGLING ∧
      outKeys s ⊆ outKeys (applyOps s ops) := by
  induction ops with
  | nil =>
    exact fun s => ⟨Finset.Subset.refl _, Finset.Subset.refl _,
      Finset.Subset.refl _, Finset.Subset.refl _⟩
  | cons op t ih =>
    intro s
    have h1 := applyOp_mono s op
    have h2 := ih (applyOp s op)
    exact ⟨h1.1.trans h2.1, h1.2.1.trans h2.2.1,
      h1.2.2.1.trans h2.2.2.1, h1.2.2.2.trans h2.2.2.2⟩

lemma applyEvent_mono (s : Store) (e : Event) :
    s.SEEN ⊆ (applyEvent s e).SEEN ∧ s.GRAPH ⊆ (applyEvent s e).GRAPH ∧
    s.DANGLING ⊆ (applyEvent s e).DANGLING ∧
    outKeys s ⊆ outKeys (applyEvent s e) := by
  cases e with
  | record c => exact applyOps_mono (worker [] c) s
  | failedBatch pmids => exact applyOps_mono (failedRequestHandler [] pmids) s

/-- Claim C8: across any sequence of processed citation records and failed
batch requests, SEEN, GRAPH, DANGLING and the key set of the OUT index only
grow — no worker or failed-request-handler mutation removes an edge from
GRAPH, an index entry from OUT, or a member from SEEN or DANGLING. -/
theorem C8_monotone_growth (s : Store) (events : List Event) :
    s.SEEN ⊆ (runEvents s events).SEEN ∧
    s.GRAPH ⊆ (runEvents s events).GRAPH ∧
    s.DANGLING ⊆ (runEvents s events).DANGLING ∧
    outKeys s ⊆ outKeys (runEvents s events) := by
  induction events generalizing s with
  | nil =>
    exact ⟨Finset.Subset.refl _, Finset.Subset.refl _,
      Finset.Subset.refl _, Finset.Subset.refl _⟩
  | cons e t ih =>
    have h1 := applyEvent_mono s e
    have h2 := ih (applyEvent s e)
    exact ⟨h1.1.trans h2.1, h1.2.1.trans h2.2.1,
      h1.2.2.1.trans h2.2.2.1, h1.2.2.2.trans h2.2.2.2⟩

lemma find_isSome_of_mem_keys (l : List (String × String)) (k : String)
    (h : k ∈ l.map Prod.fst) : (l.find? (fun p => p.1 == k)).isSome := by
  induction l with
  | nil => simp at h
  | cons a t ih =>
    by_cases hak : a.1 = k
    · simp [List.find?_cons, hak]
    · simp only [List.map_cons, List.mem_cons] at h
      rcases h with h | h
      · exact absurd h.symm hak
      · simpa [List.find?_cons, hak] using ih h

lemma mem_keys_of_lookup (k full : String) (h : lookupABBR k = some full) :
    k ∈ abbrKeys := by
  unfold lookupABBR at h
  obtain ⟨p, hp, hfull⟩ := Option.map_eq_some'.mp h
  have hpk : p.1 = k := by simpa using List.find?_some hp
  have hmem : p ∈ ABBR := List.mem_of_find?_eq_some hp
  exact hpk ▸ List.mem_map_of_mem Prod.fst hmem

/-- Claim C9: the verifyDatabase decorator guarding every store operation
fails with the invalid-collection error for any collection name outside the
fixed ABBR table, without running the wrapped operation (so the store is
untouched); for a name in the table it resolves the name to the full
collection name and runs the wrapped operation on exactly that name. -/
theorem C9_collection_name_check {α : Type}
    (decorated : String → Except DbError α) (database : String) :
    (lookupABBR database = none →
      verifyDatabase decorated database
        = Except.error DbError.invalidCollection) ∧
    (∀ full, lookupABBR database = some full →
      verifyDatabase decorated database = decorated full) := by
  constructor
  · intro h
    have hmem : database ∉ abbrKeys := by
      intro hmem
      have hs := find_isSome_of_mem_keys ABBR database hmem
      have hsome : (lookupABBR database).isSome := by
        unfold lookupABBR
        simpa using hs
      rw [h] at hsome
      simp at hsome
    rw [verifyDatabase, if_neg hmem]
  · intro full h
    have hmem : database ∈ abbrKeys := mem_keys_of_lookup database full h
    rw [verifyDatabase, if_pos hmem, h]
    rfl

/-- Witness for C9 at the unknown name X and the abbreviation E, which
resolves to the full collection name EXPLORE. -/
theorem C9_collection_name_witness :
    lookupABBR "X" = none ∧ lookupABBR "E" = some "EXPLORE" ∧
    verifyDatabase (fun full => (Except.ok full : Except DbError String)) "X"
      = Except.error DbError.invalidCollection ∧
    verifyDatabase (fun full => (Except.ok full : Except DbError String)) "E"
      = Except.ok "EXPLORE" :=
  ⟨rfl, rfl,
    (C9_collection_name_check
      (fun full => (Except.ok full : Except DbError String)) "X").1 rfl,
    (C9_collection_name_check
      (fun full => (Except.ok full : Except DbError String)) "E").2
      "EXPLORE" rfl⟩

end PaperRank
